import Mathlib

/-!
Shallow embedding of the acquisition pipeline of the mcp-video-download-server
repository (src/src/downloader.ts: `ProfessionalVideoDownloaderService`;
src/unnamed/part_002: `CloudStorageService.uploadFile`), together with a
spec-modelled transcript sanitizer (the implementation of
`VideoDownloaderService.cleanSubtitles` is not present in the sources, only its
declaration), and proofs settling the frozen claims about this code.

External effects (HTTPS fetches, the spawned yt-dlp process, JSON parsing,
clock reads, S3 calls) are modelled as explicit environment records passed to
the embedded functions; the local scratch directory is modelled as a list of
file names threaded through the functions that touch it.
-/

namespace VideoServer

/-! ## String utilities (substring / ends-with checks, mirroring JS
`String.prototype.includes` and `String.prototype.endsWith`). -/

/-- `startsWithL pat l` : the char list `l` begins with `pat`. -/
def startsWithL : List Char → List Char → Bool
  | [], _ => true
  | _ :: _, [] => false
  | p :: ps, c :: cs => p == c && startsWithL ps cs

/-- `substrAux pat l` : `pat` occurs as a contiguous run inside `l`. -/
def substrAux (pat : List Char) : List Char → Bool
  | [] => startsWithL pat []
  | c :: cs => startsWithL pat (c :: cs) || substrAux pat cs

/-- JS `haystack.includes(needle)`. -/
def containsStr (needle haystack : String) : Bool :=
  substrAux needle.data haystack.data

/-- JS `s.endsWith(suffix)`. -/
def endsWithStr (sfx s : String) : Bool :=
  startsWithL sfx.data.reverse s.data.reverse

/-- JS `s.substring(0, n)` (also `.take`-style truncation used for stderr). -/
def takeStr (n : Nat) (s : String) : String :=
  ⟨s.data.take n⟩

/-- `path.join(dir, name)` for the simple two-argument uses in the source. -/
def pathJoin (dir name : String) : String :=
  dir ++ "/" ++ name

/-! ## Platform classifier (`detectPlatform`, src/src/downloader.ts:84-91). -/

/-- `detectPlatform` from src/src/downloader.ts:84-91: fixed-order URL
substring checks, `"unknown"` if nothing matches. -/
def detectPlatform (url : String) : String :=
  if containsStr "instagram.com" url then "instagram"
  else if containsStr "tiktok.com" url then "tiktok"
  else if containsStr "facebook.com" url || containsStr "fb.watch" url then "facebook"
  else if containsStr "youtube.com" url || containsStr "youtu.be" url then "youtube"
  else if containsStr "linkedin.com" url then "linkedin"
  else "unknown"

/-- The claim C6 states about `detectPlatform`, verbatim: instagram post URLs
classify as instagram, every URL containing `tiktok.com` classifies as tiktok,
and URLs matching none of the known platform substrings classify as unknown. -/
def classifierClaim : Prop :=
  (∀ url code : String, containsStr ("instagram.com/p/" ++ code) url →
    detectPlatform url = "instagram") ∧
  (∀ url : String, containsStr "tiktok.com" url → detectPlatform url = "tiktok") ∧
  (∀ url : String,
    ¬ containsStr "instagram.com" url → ¬ containsStr "tiktok.com" url →
    ¬ containsStr "facebook.com" url → ¬ containsStr "fb.watch" url →
    ¬ containsStr "youtube.com" url → ¬ containsStr "youtu.be" url →
    ¬ containsStr "linkedin.com" url → detectPlatform url = "unknown")

/-! Substring containment is transitive through string append, used for the
instagram part of C6. -/

theorem startsWithL_append_left (p q l : List Char) :
    startsWithL (p ++ q) l = true → startsWithL p l = true := by
  induction p generalizing l with
  | nil => intro _; rfl
  | cons a as ih =>
    intro h
    cases l with
    | nil => simp [startsWithL] at h
    | cons c cs =>
      simp only [List.cons_append, startsWithL, Bool.and_eq_true] at h ⊢
      exact ⟨h.1, ih cs h.2⟩

theorem substrAux_of_append_left (p q : List Char) (l : List Char) :
    substrAux (p ++ q) l = true → substrAux p l = true := by
  induction l with
  | nil =>
    intro h
    simp only [substrAux] at h ⊢
    exact startsWithL_append_left p q [] h
  | cons c cs ih =>
    intro h
    simp only [substrAux, Bool.or_eq_true] at h ⊢
    cases h with
    | inl h => exact Or.inl (startsWithL_append_left p q (c :: cs) h)
    | inr h => exact Or.inr (ih h)

theorem containsStr_of_append_left (p q s : String) :
    containsStr (p ++ q) s = true → containsStr p s = true := by
  intro h
  unfold containsStr at h ⊢
  have : (p ++ q).data = p.data ++ q.data := by
    cases p; cases q; rfl
  rw [this] at h
  exact substrAux_of_append_left p.data q.data s.data h

/-- C6 counterexample: the claim as stated is false on the code. The URL
`https://instagram.com/p/abc?from=tiktok.com` contains `tiktok.com`, yet
`detectPlatform` classifies it as `instagram`, because the instagram substring
check runs first (src/src/downloader.ts:85-86). -/
theorem classifierClaim_false : ¬ classifierClaim := by
  intro h
  have h2 := h.2.1 "https://instagram.com/p/abc?from=tiktok.com" (by decide)
  have : detectPlatform "https://instagram.com/p/abc?from=tiktok.com" = "instagram" := by
    decide
  rw [this] at h2
  exact absurd h2 (by decide)

/-- C6 amended: `detectPlatform` is a pure total function checking URL
substrings in a fixed order (instagram, tiktok, facebook, youtube, linkedin):
every URL containing `instagram.com/p/<code>` classifies as instagram; every
URL containing `tiktok.com` but not `instagram.com` classifies as tiktok; and
every URL containing none of the known platform substrings classifies as
unknown. -/
theorem detectPlatform_fixed_order (url code : String) :
    (containsStr ("instagram.com/p/" ++ code) url = true →
      detectPlatform url = "instagram") ∧
    (containsStr "tiktok.com" url = true → containsStr "instagram.com" url = false →
      detectPlatform url = "tiktok") ∧
    (containsStr "instagram.com" url = false → containsStr "tiktok.com" url = false →
      containsStr "facebook.com" url = false → containsStr "fb.watch" url = false →
      containsStr "youtube.com" url = false → containsStr "youtu.be" url = false →
      containsStr "linkedin.com" url = false → detectPlatform url = "unknown") := by
  refine ⟨?_, ?_, ?_⟩
  · intro h
    have hsplit : ("instagram.com/p/" : String) ++ code = "instagram.com" ++ ("/p/" ++ code) := by
      have : ("instagram.com/p/" : String) = "instagram.com" ++ "/p/" := by decide
      rw [this, String.append_assoc]
    rw [hsplit] at h
    have hin := containsStr_of_append_left "instagram.com" ("/p/" ++ code) url h
    simp [detectPlatform, hin]
  · intro ht hi
    simp [detectPlatform, hi, ht]
  · intro h1 h2 h3 h4 h5 h6 h7
    simp [detectPlatform, h1, h2, h3, h4, h5, h6, h7]

/-- C6 amended, witness: concrete instantiation of
`detectPlatform_fixed_order` discharging each hypothesis. -/
theorem detectPlatform_fixed_order_witness :
    detectPlatform "https://www.instagram.com/p/XyZ1" = "instagram" ∧
    detectPlatform "https://www.tiktok.com/@u/video/9" = "tiktok" ∧
    detectPlatform "https://example.org/watch" = "unknown" :=
  ⟨(detectPlatform_fixed_order "https://www.instagram.com/p/XyZ1" "XyZ1").1 (by decide),
   (detectPlatform_fixed_order "https://www.tiktok.com/@u/video/9" "").2.1
     (by decide) (by decide),
   (detectPlatform_fixed_order "https://example.org/watch" "").2.2
     (by decide) (by decide) (by decide) (by decide) (by decide) (by decide) (by decide)⟩

/-! ## Data model (src/src/downloader.ts:5-24) and JS-truthiness helpers.
JS `a || b` treats `undefined`, the empty string and `0` as falsy; raw JSON
fields are modelled as `Option` values and `||` as the `jsOr*` functions. -/

/-- JS truthiness of a possibly-absent string (`undefined` and `""` falsy). -/
def jsTruthyStr : Option String → Bool
  | none => false
  | some s => !(s == "")

/-- JS truthiness of a possibly-absent number (`undefined` and `0` falsy). -/
def jsTruthyNat : Option Nat → Bool
  | none => false
  | some n => !(n == 0)

/-- JS `v || d` for strings. -/
def jsOrStr (v : Option String) (d : String) : String :=
  match v with
  | none => d
  | some s => if s == "" then d else s

/-- JS `v || d` for numbers. -/
def jsOrNat (v : Option Nat) (d : Nat) : Nat :=
  match v with
  | none => d
  | some n => if n == 0 then d else n

/-- JS `a || b` where both sides stay possibly-absent strings. -/
def jsSelectStr (a b : Option String) : Option String :=
  if jsTruthyStr a then a else b

/-- JS `a || b` where both sides stay possibly-absent numbers. -/
def jsSelectNat (a b : Option Nat) : Option Nat :=
  if jsTruthyNat a then a else b

/-- `VideoMetadata` (src/src/downloader.ts:5-16). -/
structure VideoMetadata where
  title : String
  uploader : String
  duration : Nat
  view_count : Option Nat := none
  upload_date : Option String := none
  description : Option String := none
  thumbnail_url : Option String := none
  direct_url : Option String := none
  platform : String
  quality : Option String := none
  deriving Repr, DecidableEq

/-- `DownloadResult` (src/src/downloader.ts:18-24). -/
structure DownloadResult where
  success : Bool
  filePath : Option String := none
  metadata : Option VideoMetadata := none
  error : Option String := none
  platform : String
  deriving Repr, DecidableEq

/-! ## Instagram GraphQL strategy
(`downloadWithInstagramGraphQL`, src/src/downloader.ts:97-187).

The two HTTPS fetches, the JSON payload, `Date.now()` and the success of
`fs.writeFile` are environment inputs; the scratch directory is a list of file
names threaded through the function. The shortcode regex match on the URL is
likewise carried by the environment (`shortcode = none` models a URL the
pattern at line 100 rejects). -/

/-- The nested media object read out of the GraphQL JSON response
(fields used at src/src/downloader.ts:138-170). -/
structure InstaMedia where
  video_url : Option String := none
  display_url : Option String := none
  caption : Option String := none
  owner_username : Option String := none
  video_duration : Option Nat := none
  video_view_count : Option Nat := none
  video_play_count : Option Nat := none
  thumbnail_src : Option String := none
  deriving Repr, DecidableEq

/-- Outcome of one `fetch` call: `ok` response, non-ok status (the code then
throws), or a thrown network error. -/
inductive FetchOutcome (α : Type) where
  | ok (v : α)
  | notOk (status : Nat)
  | raise (msg : String)
  deriving Repr, DecidableEq

/-- Environment of one `downloadWithInstagramGraphQL` run. -/
structure InstaEnv where
  shortcode : Option String
  graphql : FetchOutcome (Option InstaMedia)
  mediaFetch : FetchOutcome Unit
  writeOk : Bool
  writeErr : String := ""
  now : Nat
  deriving Repr, DecidableEq

/-- `downloadWithInstagramGraphQL` (src/src/downloader.ts:97-187); returns the
`DownloadResult` and the scratch directory contents after the call. -/
def downloadWithInstagramGraphQL (tempDir _url : String) (env : InstaEnv)
    (fs0 : List String) : DownloadResult × List String :=
  match env.shortcode with
  | none =>
      ({ success := false, error := some "Invalid Instagram URL format",
         platform := "instagram" }, fs0)
  | some sc =>
    match env.graphql with
    | .notOk status =>
        ({ success := false,
           error := some ("Instagram GraphQL download failed: GraphQL request failed: "
             ++ toString status),
           platform := "instagram" }, fs0)
    | .raise msg =>
        ({ success := false,
           error := some ("Instagram GraphQL download failed: " ++ msg),
           platform := "instagram" }, fs0)
    | .ok none =>
        ({ success := false, error := some "No media data found in GraphQL response",
           platform := "instagram" }, fs0)
    | .ok (some media) =>
      let videoUrl := media.video_url
      let downloadUrl := jsSelectStr videoUrl media.display_url
      if !(jsTruthyStr downloadUrl) then
        ({ success := false, error := some "No download URL found in media data",
           platform := "instagram" }, fs0)
      else
        let filename := "instagram_" ++ sc ++ "_" ++ toString env.now ++
          (if jsTruthyStr videoUrl then ".mp4" else ".jpg")
        let filePath := pathJoin tempDir filename
        match env.mediaFetch with
        | .notOk status =>
            ({ success := false,
               error := some ("Instagram GraphQL download failed: Media download failed: "
                 ++ toString status),
               platform := "instagram" }, fs0)
        | .raise msg =>
            ({ success := false,
               error := some ("Instagram GraphQL download failed: " ++ msg),
               platform := "instagram" }, fs0)
        | .ok _ =>
          if env.writeOk then
            ({ success := true,
               filePath := some filePath,
               metadata := some
                 { title := jsOrStr media.caption "Instagram Media",
                   uploader := jsOrStr media.owner_username "Unknown",
                   duration := jsOrNat media.video_duration 0,
                   view_count := jsSelectNat media.video_view_count media.video_play_count,
                   description := media.caption,
                   thumbnail_url := media.thumbnail_src,
                   direct_url := some (downloadUrl.getD ""),
                   platform := "instagram",
                   quality := some (if jsTruthyStr videoUrl then "original" else "image") },
               platform := "instagram" }, fs0 ++ [filename])
          else
            ({ success := false,
               error := some ("Instagram GraphQL download failed: " ++ env.writeErr),
               platform := "instagram" }, fs0)

/-! ## External-tool (yt-dlp) strategy
(`downloadWithYtDlp`, src/src/downloader.ts:189-367). -/

/-- The fields of a parsed yt-dlp `info.json` / `--dump-json` payload used by
the source (src/src/downloader.ts:305-316 and 510-521). -/
structure RawInfo where
  title : Option String := none
  uploader : Option String := none
  channel : Option String := none
  duration : Option Nat := none
  view_count : Option Nat := none
  upload_date : Option String := none
  description : Option String := none
  thumbnail : Option String := none
  url : Option String := none
  format_id : Option String := none
  deriving Repr, DecidableEq

/-- Terminating event of the spawned process: `close` with an exit code and
captured stdout/stderr, or a spawn `error` event. -/
inductive ProcEvent where
  | close (code : Int) (stdout stderr : String)
  | procError (msg : String)
  deriving Repr, DecidableEq

/-- Environment of one `downloadWithYtDlp` / `downloadAudio` run.
`procEvent = none` models a spawned process that never exits (no event is ever
delivered); `toolFiles` are the files yt-dlp itself wrote into the scratch
directory; `now2` is the second `Date.now()` read inside the find predicate at
src/src/downloader.ts:275. -/
structure YtEnv where
  procEvent : Option ProcEvent
  toolFiles : List String := []
  readdirFails : Option String := none
  infoParse : Option RawInfo := none
  now : Nat := 0
  now2 : Nat := 0
  deriving Repr, DecidableEq

/-- The find predicate at src/src/downloader.ts:273-277 selecting the primary
downloaded file among the scratch directory entries. -/
def ytdlpFindPred (platform datePre f : String) : Bool :=
  containsStr platform f && containsStr datePre f && !(endsWithStr ".info.json" f)

/-- Metadata built from a parsed `info.json` on the download path
(src/src/downloader.ts:305-316), with JS `||` defaulting. -/
def buildYtDlpDownloadMetadata (info : RawInfo) (platform : String) : VideoMetadata :=
  { title := jsOrStr info.title "Downloaded Video",
    uploader := jsOrStr info.uploader (jsOrStr info.channel "Unknown"),
    duration := jsOrNat info.duration 0,
    view_count := info.view_count,
    upload_date := info.upload_date,
    description := info.description,
    thumbnail_url := info.thumbnail,
    direct_url := info.url,
    platform := platform,
    quality := some (jsOrStr info.format_id "best") }

/-- The nonzero-exit stderr classification at src/src/downloader.ts:336-349. -/
def classifyStderr (code : Int) (stderr platform : String) : String :=
  if containsStr "Sign in to confirm you\x27re not a bot" stderr then
    "YouTube bot detection triggered. Try again later or use different IP."
  else if containsStr "login required" stderr || containsStr "authentication" stderr then
    platform ++ " requires authentication. This content may be private or restricted."
  else if containsStr "rate limit" stderr || containsStr "429" stderr then
    "Rate limited by " ++ platform ++ ". Please wait before trying again."
  else if containsStr "not available" stderr || containsStr "404" stderr then
    "Video not found or has been removed."
  else if !(stderr == "") then takeStr 200 stderr
  else "yt-dlp failed with code " ++ toString code

/-- `downloadWithYtDlp` (src/src/downloader.ts:189-367). The promise resolves
only from the `close` and `error` handlers; `none` models a run whose process
never exits, in which case no result is ever produced (the source installs no
timeout or kill timer). Returns the optional result and the scratch directory
contents after the call. -/
def downloadWithYtDlp (tempDir _url platform : String) (env : YtEnv)
    (fs0 : List String) : Option DownloadResult × List String :=
  let fsAll := fs0 ++ env.toolFiles
  match env.procEvent with
  | none => (none, fsAll)
  | some (.procError msg) =>
      (some { success := false, error := some ("Process error: " ++ msg),
              platform := platform }, fsAll)
  | some (.close code _ stderr) =>
    if code == 0 then
      match env.readdirFails with
      | some msg =>
          (some { success := false,
                  error := some ("File processing failed: " ++ msg),
                  platform := platform }, fsAll)
      | none =>
        let datePre := takeStr 8 (toString env.now2)
        match fsAll.find? (fun f => ytdlpFindPred platform datePre f) with
        | none =>
            (some { success := false, error := some "Downloaded file not found",
                    platform := platform }, fsAll)
        | some f =>
            let metadata := match env.infoParse with
              | none =>
                  { title := "Downloaded Video", uploader := "Unknown", duration := 0,
                    platform := platform, quality := some "best" : VideoMetadata }
              | some info => buildYtDlpDownloadMetadata info platform
            (some { success := true, filePath := some (pathJoin tempDir f),
                    metadata := some metadata, platform := platform }, fsAll)
    else
      (some { success := false, error := some (classifyStderr code stderr platform),
              platform := platform }, fsAll)

/-- `downloadVideo` (src/src/downloader.ts:369-396): on an instagram-classified
URL the GraphQL strategy runs first and its success is adopted; otherwise (and
for all other platforms) the yt-dlp strategy's outcome is returned. -/
structure VideoEnv where
  insta : InstaEnv
  yt : YtEnv
  deriving Repr, DecidableEq

/-- `downloadVideo` (src/src/downloader.ts:369-396). -/
def downloadVideo (tempDir url : String) (env : VideoEnv) (fs0 : List String) :
    Option DownloadResult × List String :=
  let platform := detectPlatform url
  if platform == "instagram" then
    let g := downloadWithInstagramGraphQL tempDir url env.insta fs0
    if g.1.success then (some g.1, g.2)
    else downloadWithYtDlp tempDir url platform env.yt g.2
  else
    downloadWithYtDlp tempDir url platform env.yt fs0

/-- `downloadAudio` (src/src/downloader.ts:398-465). No `error` handler is
registered on the spawned process there, so a spawn error (like a never-
exiting process) delivers no result. -/
def downloadAudio (tempDir url : String) (env : YtEnv) (fs0 : List String) :
    Option DownloadResult × List String :=
  let platform := detectPlatform url
  let fsAll := fs0 ++ env.toolFiles
  match env.procEvent with
  | none => (none, fsAll)
  | some (.procError _) => (none, fsAll)
  | some (.close code _ stderr) =>
    if code == 0 then
      match env.readdirFails with
      | some msg =>
          (some { success := false,
                  error := some ("Audio processing failed: " ++ msg),
                  platform := platform }, fsAll)
      | none =>
        let datePre := takeStr 8 (toString env.now2)
        match fsAll.find? (fun f =>
            containsStr (platform ++ "_audio") f && containsStr datePre f &&
            endsWithStr ".mp3" f) with
        | some f =>
            (some { success := true, filePath := some (pathJoin tempDir f),
                    platform := platform }, fsAll)
        | none =>
            (some { success := false,
                    error := some "Audio file not found after extraction",
                    platform := platform }, fsAll)
    else
      (some { success := false,
              error := some ("Audio extraction failed: " ++ takeStr 200 stderr),
              platform := platform }, fsAll)

/-- Metadata normalizer of the `--dump-json` path
(src/src/downloader.ts:510-521), with JS `||` defaulting. -/
def buildYtDlpMetadata (info : RawInfo) (platform : String) : VideoMetadata :=
  { title := jsOrStr info.title "Unknown Title",
    uploader := jsOrStr info.uploader (jsOrStr info.channel "Unknown"),
    duration := jsOrNat info.duration 0,
    view_count := info.view_count,
    upload_date := info.upload_date,
    description := info.description,
    thumbnail_url := info.thumbnail,
    direct_url := info.url,
    platform := platform,
    quality := some (jsOrStr info.format_id "unknown") }

/-- Environment of one `getVideoMetadata` run. -/
structure MetaEnv where
  insta : InstaEnv
  proc : Option ProcEvent
  jsonParse : Option RawInfo := none
  deriving Repr, DecidableEq

/-- `getVideoMetadata` (src/src/downloader.ts:467-544). -/
def getVideoMetadata (tempDir url : String) (env : MetaEnv) (fs0 : List String) :
    Option DownloadResult × List String :=
  let platform := detectPlatform url
  let step := fun (fsCur : List String) =>
    match env.proc with
    | none => ((none : Option DownloadResult), fsCur)
    | some (.procError _) => (none, fsCur)
    | some (.close code stdout stderr) =>
      if code == 0 && !(stdout.trim == "") then
        match env.jsonParse with
        | some info =>
            (some { success := true,
                    metadata := some (buildYtDlpMetadata info platform),
                    platform := platform }, fsCur)
        | none =>
            (some { success := false,
                    error := some "Failed to parse video metadata",
                    platform := platform }, fsCur)
      else
        (some { success := false,
                error := some (jsOrStr (some (takeStr 200 stderr))
                  "Failed to get video metadata"),
                platform := platform }, fsCur)
  if platform == "instagram" then
    let g := downloadWithInstagramGraphQL tempDir url env.insta fs0
    if g.1.success && g.1.metadata.isSome then
      (some { success := true, metadata := g.1.metadata, platform := "instagram" }, g.2)
    else step g.2
  else step fs0

/-! ## Helper lemmas about the scratch-directory effect and the platform field
of each embedded operation. -/

/-- The Instagram strategy either leaves the scratch directory unchanged or
appends exactly the one file it wrote. -/
theorem insta_fs_shape (td url : String) (env : InstaEnv) (fs0 : List String) :
    (downloadWithInstagramGraphQL td url env fs0).2 = fs0 ∨
    ∃ f, (downloadWithInstagramGraphQL td url env fs0).2 = fs0 ++ [f] := by
  obtain ⟨sc, gq, mf, wok, werr, now⟩ := env
  unfold downloadWithInstagramGraphQL
  cases sc with
  | none => exact Or.inl rfl
  | some s =>
    cases gq with
    | notOk st => exact Or.inl rfl
    | raise m => exact Or.inl rfl
    | ok om =>
      cases om with
      | none => exact Or.inl rfl
      | some media =>
        dsimp only
        split
        · exact Or.inl rfl
        · cases mf with
          | notOk st => exact Or.inl rfl
          | raise m => exact Or.inl rfl
          | ok u =>
            cases wok with
            | false => exact Or.inl rfl
            | true => exact Or.inr ⟨_, rfl⟩

/-- On success the Instagram strategy has appended its artifact to the scratch
directory and returned that artifact's path. -/
theorem insta_success_file (td url : String) (env : InstaEnv) (fs0 : List String) :
    (downloadWithInstagramGraphQL td url env fs0).1.success = true →
    ∃ f, (downloadWithInstagramGraphQL td url env fs0).2 = fs0 ++ [f] ∧
      (downloadWithInstagramGraphQL td url env fs0).1.filePath = some (pathJoin td f) := by
  obtain ⟨sc, gq, mf, wok, werr, now⟩ := env
  unfold downloadWithInstagramGraphQL
  cases sc with
  | none => intro h; exact absurd h (by simp)
  | some s =>
    cases gq with
    | notOk st => intro h; exact absurd h (by simp)
    | raise m => intro h; exact absurd h (by simp)
    | ok om =>
      cases om with
      | none => intro h; exact absurd h (by simp)
      | some media =>
        dsimp only
        split
        · intro h; exact absurd h (by simp)
        · cases mf with
          | notOk st => intro h; exact absurd h (by simp)
          | raise m => intro h; exact absurd h (by simp)
          | ok u =>
            cases wok with
            | false => intro h; exact absurd h (by simp)
            | true => intro _; exact ⟨_, rfl, rfl⟩

/-- The Instagram strategy always reports platform `"instagram"`. -/
theorem insta_platform (td url : String) (env : InstaEnv) (fs0 : List String) :
    (downloadWithInstagramGraphQL td url env fs0).1.platform = "instagram" := by
  obtain ⟨sc, gq, mf, wok, werr, now⟩ := env
  unfold downloadWithInstagramGraphQL
  cases sc with
  | none => rfl
  | some s =>
    cases gq with
    | notOk st => rfl
    | raise m => rfl
    | ok om =>
      cases om with
      | none => rfl
      | some media =>
        dsimp only
        split
        · rfl
        · cases mf with
          | notOk st => rfl
          | raise m => rfl
          | ok u => cases wok with
            | false => rfl
            | true => rfl

/-- The yt-dlp strategy's scratch effect: the listing after the call is the
prior listing plus whatever the tool itself wrote — the handler deletes
nothing. -/
theorem ytdlp_fs (td url p : String) (env : YtEnv) (fs0 : List String) :
    (downloadWithYtDlp td url p env fs0).2 = fs0 ++ env.toolFiles := by
  obtain ⟨pe, tf, rdf, ip, n1, n2⟩ := env
  cases pe with
  | none => rfl
  | some ev =>
    cases ev with
    | procError m => rfl
    | close c so se =>
      unfold downloadWithYtDlp
      dsimp only
      split
      · cases rdf with
        | some m => rfl
        | none =>
          dsimp only
          split <;> rfl
      · rfl

/-- `downloadAudio`'s scratch effect, same shape as `ytdlp_fs`. -/
theorem audio_fs (td url : String) (env : YtEnv) (fs0 : List String) :
    (downloadAudio td url env fs0).2 = fs0 ++ env.toolFiles := by
  obtain ⟨pe, tf, rdf, ip, n1, n2⟩ := env
  cases pe with
  | none => rfl
  | some ev =>
    cases ev with
    | procError m => rfl
    | close c so se =>
      unfold downloadAudio
      dsimp only
      split
      · cases rdf with
        | some m => rfl
        | none =>
          dsimp only
          split <;> rfl
      · rfl

/-- Every result the yt-dlp strategy produces carries the platform it was
invoked with. -/
theorem ytdlp_platform (td url p : String) (env : YtEnv) (fs0 : List String)
    (r : DownloadResult) :
    (downloadWithYtDlp td url p env fs0).1 = some r → r.platform = p := by
  obtain ⟨pe, tf, rdf, ip, n1, n2⟩ := env
  unfold downloadWithYtDlp
  cases pe with
  | none => intro h; exact absurd h (by simp)
  | some ev =>
    cases ev with
    | procError m =>
      intro h
      dsimp only at h
      simp only [Option.some.injEq] at h
      subst h; rfl
    | close c so se =>
      dsimp only
      split
      · cases rdf with
        | some m =>
          intro h
          dsimp only at h
          simp only [Option.some.injEq] at h
          subst h; rfl
        | none =>
          dsimp only
          split
          · intro h
            dsimp only at h
            simp only [Option.some.injEq] at h
            subst h; rfl
          · intro h
            dsimp only at h
            simp only [Option.some.injEq] at h
            subst h; rfl
      · intro h
        dsimp only at h
        simp only [Option.some.injEq] at h
        subst h; rfl

/-- Every result `downloadAudio` produces carries the classifier's platform. -/
theorem audio_platform (td url : String) (env : YtEnv) (fs0 : List String)
    (r : DownloadResult) :
    (downloadAudio td url env fs0).1 = some r → r.platform = detectPlatform url := by
  obtain ⟨pe, tf, rdf, ip, n1, n2⟩ := env
  unfold downloadAudio
  cases pe with
  | none => intro h; exact absurd h (by simp)
  | some ev =>
    cases ev with
    | procError m => intro h; exact absurd h (by simp)
    | close c so se =>
      dsimp only
      split
      · cases rdf with
        | some m =>
          intro h
          dsimp only at h
          simp only [Option.some.injEq] at h
          subst h; rfl
        | none =>
          dsimp only
          split
          · intro h
            dsimp only at h
            simp only [Option.some.injEq] at h
            subst h; rfl
          · intro h
            dsimp only at h
            simp only [Option.some.injEq] at h
            subst h; rfl
      · intro h
        dsimp only at h
        simp only [Option.some.injEq] at h
        subst h; rfl

/-- The Instagram strategy never removes pre-existing scratch files. -/
theorem insta_keeps_fs (td url : String) (env : InstaEnv) (fs0 : List String) :
    fs0 <+: (downloadWithInstagramGraphQL td url env fs0).2 := by
  rcases insta_fs_shape td url env fs0 with h | ⟨f, h⟩
  · rw [h]
  · rw [h]; exact List.prefix_append _ _

/-- `downloadVideo` never removes pre-existing scratch files. -/
theorem video_fs (td url : String) (env : VideoEnv) (fs0 : List String) :
    fs0 <+: (downloadVideo td url env fs0).2 := by
  obtain ⟨ienv, yenv⟩ := env
  unfold downloadVideo
  dsimp only
  split
  · split
    · exact insta_keeps_fs td url ienv fs0
    · refine (insta_keeps_fs td url ienv fs0).trans ?_
      rw [ytdlp_fs]
      exact List.prefix_append _ _
  · rw [ytdlp_fs]
    exact List.prefix_append _ _

/-- `getVideoMetadata` never removes pre-existing scratch files. -/
theorem meta_fs (td url : String) (env : MetaEnv) (fs0 : List String) :
    fs0 <+: (getVideoMetadata td url env fs0).2 := by
  obtain ⟨ienv, pr, jp⟩ := env
  unfold getVideoMetadata
  dsimp only
  split
  · split
    · exact insta_keeps_fs td url ienv fs0
    · refine (insta_keeps_fs td url ienv fs0).trans ?_
      cases pr with
      | none => exact List.prefix_refl _
      | some ev =>
        cases ev with
        | procError m => exact List.prefix_refl _
        | close c so se =>
          dsimp only
          split
          · split <;> exact List.prefix_refl _
          · exact List.prefix_refl _
  · cases pr with
    | none => exact List.prefix_refl _
    | some ev =>
      cases ev with
      | procError m => exact List.prefix_refl _
      | close c so se =>
        dsimp only
        split
        · split <;> exact List.prefix_refl _
        · exact List.prefix_refl _

/-- Every result `getVideoMetadata` produces carries the classifier's
platform. -/
theorem meta_platform (td url : String) (env : MetaEnv) (fs0 : List String)
    (r : DownloadResult) :
    (getVideoMetadata td url env fs0).1 = some r → r.platform = detectPlatform url := by
  obtain ⟨ienv, pr, jp⟩ := env
  unfold getVideoMetadata
  dsimp only
  split
  case isTrue hinsta =>
    split
    · intro h
      dsimp only at h
      simp only [Option.some.injEq] at h
      subst h
      exact (eq_of_beq hinsta).symm
    · cases pr with
      | none => intro h; exact absurd h (by simp)
      | some ev =>
        cases ev with
        | procError m => intro h; exact absurd h (by simp)
        | close c so se =>
          dsimp only
          split
          · split
            · intro h
              dsimp only at h
              simp only [Option.some.injEq] at h
              subst h; rfl
            · intro h
              dsimp only at h
              simp only [Option.some.injEq] at h
              subst h; rfl
          · intro h
            dsimp only at h
            simp only [Option.some.injEq] at h
            subst h; rfl
  case isFalse =>
    cases pr with
    | none => intro h; exact absurd h (by simp)
    | some ev =>
      cases ev with
      | procError m => intro h; exact absurd h (by simp)
      | close c so se =>
        dsimp only
        split
        · split
          · intro h
            dsimp only at h
            simp only [Option.some.injEq] at h
            subst h; rfl
          · intro h
            dsimp only at h
            simp only [Option.some.injEq] at h
            subst h; rfl
        · intro h
          dsimp only at h
          simp only [Option.some.injEq] at h
          subst h; rfl

/-- Every result `downloadVideo` produces carries the classifier's platform. -/
theorem video_platform (td url : String) (env : VideoEnv) (fs0 : List String)
    (r : DownloadResult) :
    (downloadVideo td url env fs0).1 = some r → r.platform = detectPlatform url := by
  obtain ⟨ienv, yenv⟩ := env
  unfold downloadVideo
  dsimp only
  split
  case isTrue hinsta =>
    split
    · intro h
      simp only [Option.some.injEq] at h
      subst h
      rw [insta_platform]
      exact (eq_of_beq hinsta).symm
    · exact fun h => ytdlp_platform td url (detectPlatform url) yenv _ r h
  case isFalse =>
    exact fun h => ytdlp_platform td url (detectPlatform url) yenv fs0 r h

/-- Whenever the spawned process delivers a terminating event, the yt-dlp
strategy resolves with some result. -/
theorem ytdlp_some (td url p : String) (env : YtEnv) (fs0 : List String) :
    env.procEvent.isSome = true →
    (downloadWithYtDlp td url p env fs0).1.isSome = true := by
  obtain ⟨pe, tf, rdf, ip, n1, n2⟩ := env
  unfold downloadWithYtDlp
  cases pe with
  | none => intro h; exact absurd h (by simp)
  | some ev =>
    intro _
    cases ev with
    | procError m => rfl
    | close c so se =>
      dsimp only
      split
      · cases rdf with
        | some m => rfl
        | none => dsimp only; split <;> rfl
      · rfl

/-- A successful yt-dlp result's file path points at the file the find
predicate selected, which never ends in `.info.json`. -/
theorem ytdlp_success_filePath (td url p : String) (env : YtEnv) (fs0 : List String)
    (r : DownloadResult)
    (hr : (downloadWithYtDlp td url p env fs0).1 = some r)
    (hs : r.success = true) :
    ∃ f, r.filePath = some (pathJoin td f) ∧ endsWithStr ".info.json" f = false := by
  obtain ⟨pe, tf, rdf, ip, n1, n2⟩ := env
  unfold downloadWithYtDlp at hr
  cases pe with
  | none => exact absurd hr (by simp)
  | some ev =>
    cases ev with
    | procError m =>
      dsimp only at hr
      simp only [Option.some.injEq] at hr
      subst hr
      exact absurd hs (by simp)
    | close c so se =>
      dsimp only at hr
      revert hr
      split
      · cases rdf with
        | some m =>
          intro hr
          dsimp only at hr
          simp only [Option.some.injEq] at hr
          subst hr
          exact absurd hs (by simp)
        | none =>
          dsimp only
          split
          · intro hr
            dsimp only at hr
            simp only [Option.some.injEq] at hr
            subst hr
            exact absurd hs (by simp)
          · next f hfind =>
            intro hr
            dsimp only at hr
            simp only [Option.some.injEq] at hr
            subst hr
            refine ⟨f, rfl, ?_⟩
            have hp := List.find?_some hfind
            simp only [ytdlpFindPred, Bool.and_eq_true, Bool.not_eq_true'] at hp
            exact hp.2
      · intro hr
        dsimp only at hr
        simp only [Option.some.injEq] at hr
        subst hr
        exact absurd hs (by simp)

/-! ## Concrete environments used by counterexamples and witnesses. -/

/-- A fully successful Instagram GraphQL run: the URL matches the shortcode
pattern, both fetches succeed, and the media file is written. -/
def instaEnvOk : InstaEnv :=
  { shortcode := some "Cxyz",
    graphql := .ok (some { video_url := some "https://cdn.example/v.mp4" }),
    mediaFetch := .ok (),
    writeOk := true,
    now := 1700000000000 }

/-- A yt-dlp process that never exits: no close or error event is ever
delivered. -/
def ytEnvHang : YtEnv := { procEvent := none }

/-- A clean exit with two non-sidecar files both matching the session
predicate in the scratch directory. -/
def ytEnvTwoMatches : YtEnv :=
  { procEvent := some (.close 0 "" ""),
    toolFiles := ["youtube_17000000_a.mp4", "youtube_17000000_b.mp4"],
    now2 := 17000000 }

/-- A clean exit with exactly one matching output file. -/
def ytEnvOneMatch : YtEnv :=
  { procEvent := some (.close 0 "" ""),
    toolFiles := ["youtube_17000000_a.mp4"],
    now2 := 17000000 }

/-- The result `downloadWithYtDlp` computes in the `ytEnvOneMatch`
environment. -/
def ytOneMatchResult : DownloadResult :=
  { success := true,
    filePath := some "/tmp/youtube_17000000_a.mp4",
    metadata := some { title := "Downloaded Video", uploader := "Unknown", duration := 0,
                       platform := "youtube", quality := some "best" },
    platform := "youtube" }

/-! ## Claim C1 -/

/-- C1 counterexample: a successful Instagram GraphQL acquisition returns with
the scratch file it created still present in the temp directory — scratch
files are not removed before the request's result is returned (the success
path at src/src/downloader.ts:173-178 returns the file's path, and no failure
or success path deletes anything). -/
theorem c1_scratch_not_removed_counterexample :
    (downloadWithInstagramGraphQL "/tmp" "https://www.instagram.com/p/Cxyz/"
      instaEnvOk []).1.success = true ∧
    (downloadWithInstagramGraphQL "/tmp" "https://www.instagram.com/p/Cxyz/"
      instaEnvOk []).2 = ["instagram_Cxyz_1700000000000.mp4"] := ⟨rfl, rfl⟩

/-- C1 amended: the acquisition operations never remove scratch files at all —
on every outcome the pre-existing directory contents survive the call, and a
successful Instagram GraphQL run leaves exactly the artifact it created in the
temp directory and returns that artifact's path (cleanup is a separate
explicit method the caller must invoke). -/
theorem c1_scratch_lifecycle (td url : String) (ienv : InstaEnv) (yenv : YtEnv)
    (venv : VideoEnv) (menv : MetaEnv) (fs0 : List String) :
    fs0 <+: (downloadWithInstagramGraphQL td url ienv fs0).2 ∧
    fs0 <+: (downloadWithYtDlp td url (detectPlatform url) yenv fs0).2 ∧
    fs0 <+: (downloadVideo td url venv fs0).2 ∧
    fs0 <+: (downloadAudio td url yenv fs0).2 ∧
    fs0 <+: (getVideoMetadata td url menv fs0).2 ∧
    ((downloadWithInstagramGraphQL td url ienv fs0).1.success = true →
      ∃ f, (downloadWithInstagramGraphQL td url ienv fs0).2 = fs0 ++ [f] ∧
        (downloadWithInstagramGraphQL td url ienv fs0).1.filePath =
          some (pathJoin td f)) := by
  refine ⟨insta_keeps_fs td url ienv fs0, ?_, video_fs td url venv fs0, ?_,
    meta_fs td url menv fs0, insta_success_file td url ienv fs0⟩
  · rw [ytdlp_fs]; exact List.prefix_append _ _
  · rw [audio_fs]; exact List.prefix_append _ _

/-- C1 amended, witness: the final conjunct of `c1_scratch_lifecycle` at the
successful Instagram environment. -/
theorem c1_scratch_lifecycle_witness :
    ∃ f, (downloadWithInstagramGraphQL "/tmp" "https://www.instagram.com/p/Cxyz/"
        instaEnvOk []).2 = [] ++ [f] ∧
      (downloadWithInstagramGraphQL "/tmp" "https://www.instagram.com/p/Cxyz/"
        instaEnvOk []).1.filePath = some (pathJoin "/tmp" f) :=
  (c1_scratch_lifecycle "/tmp" "https://www.instagram.com/p/Cxyz/" instaEnvOk
    ytEnvHang ⟨instaEnvOk, ytEnvHang⟩ ⟨instaEnvOk, none, none⟩ []).2.2.2.2.2 rfl

/-! ## Claim C2 -/

/-- C2 counterexample: the source applies no timeout to the external tool.
With a spawned process that never exits, neither the yt-dlp download nor the
audio extraction ever produces a result — no kill is issued and no Timeout
outcome exists. -/
theorem c2_no_timeout_counterexample :
    (downloadWithYtDlp "/tmp" "https://www.youtube.com/watch?v=x" "youtube"
      ytEnvHang []).1 = none ∧
    (downloadAudio "/tmp" "https://www.youtube.com/watch?v=x" ytEnvHang []).1 = none :=
  ⟨rfl, rfl⟩

/-- C2 amended: no timeout is applied anywhere — `downloadWithYtDlp` resolves
exactly when the process delivers a close or error event, and `downloadAudio`
resolves exactly on a close event (it registers no error handler); a process
that never exits leaves the operation pending forever and is never killed. -/
theorem c2_resolution_iff_process_event (td url p : String) (env : YtEnv)
    (fs0 : List String) :
    ((downloadWithYtDlp td url p env fs0).1 = none ↔ env.procEvent = none) ∧
    ((downloadAudio td url env fs0).1 = none ↔
      env.procEvent = none ∨ ∃ m, env.procEvent = some (.procError m)) := by
  obtain ⟨pe, tf, rdf, ip, n1, n2⟩ := env
  constructor
  · unfold downloadWithYtDlp
    cases pe with
    | none => simp
    | some ev =>
      cases ev with
      | procError m => simp
      | close c so se =>
        dsimp only
        split
        · cases rdf with
          | some m => simp
          | none => dsimp only; split <;> simp
        · simp
  · unfold downloadAudio
    cases pe with
    | none => simp
    | some ev =>
      cases ev with
      | procError m => simp
      | close c so se =>
        dsimp only
        split
        · cases rdf with
          | some m => simp
          | none => dsimp only; split <;> simp
        · simp

/-- C2 amended, witness: `c2_resolution_iff_process_event` applied to the
never-exiting process environment. -/
theorem c2_resolution_iff_process_event_witness :
    (downloadWithYtDlp "/tmp" "u" "youtube" ytEnvHang []).1 = none :=
  (c2_resolution_iff_process_event "/tmp" "u" "youtube" ytEnvHang []).1.mpr rfl

/-! ## Claim C3 -/

/-- C3 counterexample: two non-sidecar files match the session predicate, yet
the run reports success adopting the first match in directory order instead of
returning an ambiguity/OutputNotFound error. -/
theorem c3_ambiguous_counterexample :
    ytdlpFindPred "youtube" (takeStr 8 (toString (17000000 : Nat)))
      "youtube_17000000_a.mp4" = true ∧
    ytdlpFindPred "youtube" (takeStr 8 (toString (17000000 : Nat)))
      "youtube_17000000_b.mp4" = true ∧
    (downloadWithYtDlp "/tmp" "u" "youtube" ytEnvTwoMatches []).1.map
      (fun r => r.success) = some true ∧
    (downloadWithYtDlp "/tmp" "u" "youtube" ytEnvTwoMatches []).1.map
      (fun r => r.filePath) = some (some "/tmp/youtube_17000000_a.mp4") :=
  ⟨by decide, by decide, rfl, rfl⟩

/-- C3 amended: after a clean tool exit, zero predicate matches yield the
`Downloaded file not found` failure, but one or more matches never yield an
error: the first matching file in directory order is adopted and success is
returned. -/
theorem c3_output_resolution (td url p so se : String) (env : YtEnv)
    (fs0 : List String)
    (hev : env.procEvent = some (.close 0 so se))
    (hrd : env.readdirFails = none) :
    ((fs0 ++ env.toolFiles).find?
        (fun f => ytdlpFindPred p (takeStr 8 (toString env.now2)) f) = none →
      (downloadWithYtDlp td url p env fs0).1 =
        some { success := false, error := some "Downloaded file not found",
               platform := p }) ∧
    (∀ f, (fs0 ++ env.toolFiles).find?
        (fun f => ytdlpFindPred p (takeStr 8 (toString env.now2)) f) = some f →
      ∃ r, (downloadWithYtDlp td url p env fs0).1 = some r ∧ r.success = true ∧
        r.filePath = some (pathJoin td f)) := by
  obtain ⟨pe, tf, rdf, ip, n1, n2⟩ := env
  dsimp only at hev hrd ⊢
  subst hev
  subst hrd
  unfold downloadWithYtDlp
  dsimp only
  constructor
  · intro hnone
    rw [hnone]
    rfl
  · intro f hf
    rw [hf]
    exact ⟨_, rfl, rfl, rfl⟩

/-- C3 amended, witness: in the two-match environment the first match is
adopted with success. -/
theorem c3_output_resolution_witness :
    ∃ r, (downloadWithYtDlp "/tmp" "u" "youtube" ytEnvTwoMatches []).1 = some r ∧
      r.success = true ∧
      r.filePath = some (pathJoin "/tmp" "youtube_17000000_a.mp4") :=
  (c3_output_resolution "/tmp" "u" "youtube" "" "" ytEnvTwoMatches [] rfl rfl).2
    "youtube_17000000_a.mp4" (by decide)

/-! ## Claim C4 -/

/-- C4: `downloadVideo` runs its strategies strictly sequentially and adopts
the first success. On an instagram-classified URL a successful GraphQL outcome
is returned unchanged and the external tool is not invoked (the result is
independent of the yt-dlp environment); if the GraphQL strategy fails, the
yt-dlp strategy runs on the resulting scratch state and its outcome — in
particular its error message — is what is returned; on every other platform
the yt-dlp outcome is returned directly; and whenever the underlying tool
process delivers its terminating event, a result value carrying a success
flag is produced (the orchestrator itself never throws: every code path
resolves with a `DownloadResult`). -/
theorem c4_orchestration (td url : String) (env : VideoEnv) (fs0 : List String) :
    (detectPlatform url = "instagram" →
      (downloadWithInstagramGraphQL td url env.insta fs0).1.success = true →
      ∀ yenv' : YtEnv, (downloadVideo td url ⟨env.insta, yenv'⟩ fs0).1 =
        some (downloadWithInstagramGraphQL td url env.insta fs0).1) ∧
    (detectPlatform url = "instagram" →
      (downloadWithInstagramGraphQL td url env.insta fs0).1.success = false →
      (downloadVideo td url env fs0).1 =
        (downloadWithYtDlp td url "instagram" env.yt
          (downloadWithInstagramGraphQL td url env.insta fs0).2).1) ∧
    (detectPlatform url ≠ "instagram" →
      (downloadVideo td url env fs0).1 =
        (downloadWithYtDlp td url (detectPlatform url) env.yt fs0).1) ∧
    (env.yt.procEvent.isSome = true →
      (downloadVideo td url env fs0).1.isSome = true) := by
  obtain ⟨ienv, yenv⟩ := env
  refine ⟨?_, ?_, ?_, ?_⟩
  · intro h hs yenv'
    unfold downloadVideo
    dsimp only
    simp only [h, beq_self_eq_true, if_true, hs]
  · intro h hs
    unfold downloadVideo
    dsimp only
    simp only [h, beq_self_eq_true, if_true, hs, Bool.false_eq_true, if_false]
  · intro h
    unfold downloadVideo
    dsimp only
    have hb : (detectPlatform url == "instagram") = false := by
      simp [beq_iff_eq, h]
    simp only [hb, Bool.false_eq_true, if_false]
  · intro hev
    unfold downloadVideo
    dsimp only
    split
    · split
      · rfl
      · exact ytdlp_some td url (detectPlatform url) yenv _ hev
    · exact ytdlp_some td url (detectPlatform url) yenv fs0 hev

/-- C4 witness: on a concrete instagram URL with a successful GraphQL run and
a yt-dlp environment that would hang forever, the GraphQL success is returned
— the external tool is never consulted. -/
theorem c4_orchestration_witness :
    (downloadVideo "/tmp" "https://www.instagram.com/p/Cxyz/"
      ⟨instaEnvOk, ytEnvHang⟩ []).1 =
      some (downloadWithInstagramGraphQL "/tmp" "https://www.instagram.com/p/Cxyz/"
        instaEnvOk []).1 :=
  (c4_orchestration "/tmp" "https://www.instagram.com/p/Cxyz/"
    ⟨instaEnvOk, ytEnvHang⟩ []).1 (by decide) rfl ytEnvHang

/-! ## Claim C7 -/

/-- C7 counterexample: with every optional field absent from the raw tool
JSON, the normalizer yields duration `0` (zero — which the claim excludes),
uploader `"Unknown"` and title `"Unknown Title"` (not the string
`"unknown"`), leaves `view_count` absent, and only `quality` defaults to
`"unknown"`. -/
theorem c7_defaults_counterexample :
    (buildYtDlpMetadata {} "youtube").duration = 0 ∧
    (buildYtDlpMetadata {} "youtube").uploader = "Unknown" ∧
    (buildYtDlpMetadata {} "youtube").title = "Unknown Title" ∧
    (buildYtDlpMetadata {} "youtube").view_count = none ∧
    (buildYtDlpMetadata {} "youtube").quality = some "unknown" :=
  ⟨rfl, rfl, rfl, rfl, rfl⟩

/-- C7 amended: absent optional fields default per field, not uniformly to
`"unknown"`: on the metadata path title → `"Unknown Title"` and quality →
`"unknown"`; on the download path title → `"Downloaded Video"` and quality →
`"best"`; uploader → `"Unknown"` on both; duration → `0`; and the remaining
optional fields (`view_count`, `upload_date`, `description`, `thumbnail_url`,
`direct_url`) stay absent. -/
theorem c7_absent_field_defaults (p : String) :
    buildYtDlpMetadata {} p =
      { title := "Unknown Title", uploader := "Unknown", duration := 0,
        platform := p, quality := some "unknown" } ∧
    buildYtDlpDownloadMetadata {} p =
      { title := "Downloaded Video", uploader := "Unknown", duration := 0,
        platform := p, quality := some "best" } := ⟨rfl, rfl⟩

/-! ## Claim C9 -/

/-- C9: every result produced by `downloadVideo`, `downloadAudio` and
`getVideoMetadata` — success or failure — carries a platform field equal to
the classifier's value for the request URL, and the Instagram direct-API
strategy always reports platform `"instagram"`. -/
theorem c9_platform_invariant (td url : String) (ienv : InstaEnv) (venv : VideoEnv)
    (yenv : YtEnv) (menv : MetaEnv) (fs0 : List String) :
    (∀ r, (downloadVideo td url venv fs0).1 = some r →
      r.platform = detectPlatform url) ∧
    (∀ r, (downloadAudio td url yenv fs0).1 = some r →
      r.platform = detectPlatform url) ∧
    (∀ r, (getVideoMetadata td url menv fs0).1 = some r →
      r.platform = detectPlatform url) ∧
    (downloadWithInstagramGraphQL td url ienv fs0).1.platform = "instagram" :=
  ⟨fun r => video_platform td url venv fs0 r,
   fun r => audio_platform td url yenv fs0 r,
   fun r => meta_platform td url menv fs0 r,
   insta_platform td url ienv fs0⟩

/-- C9 witness: the platform invariant at a concrete youtube URL whose tool
process fails to spawn. -/
theorem c9_platform_invariant_witness :
    ({ success := false, error := some "Process error: boom",
       platform := "youtube" } : DownloadResult).platform =
      detectPlatform "https://www.youtube.com/watch?v=1" :=
  (c9_platform_invariant "/tmp" "https://www.youtube.com/watch?v=1" instaEnvOk
    ⟨instaEnvOk, { procEvent := some (.procError "boom") }⟩
    { procEvent := some (.procError "boom") } ⟨instaEnvOk, none, none⟩ []).1
    { success := false, error := some "Process error: boom", platform := "youtube" } rfl

/-! ## Claim C10 -/

/-- C10: whenever `downloadVideo` returns success via the external-tool path
(that is, not via a successful Instagram GraphQL run), the result's filePath
is defined and names a file that does not end in `.info.json` — the sidecar
metadata file is never chosen as the primary artifact. -/
theorem c10_success_not_sidecar (td url : String) (env : VideoEnv) (fs0 : List String)
    (r : DownloadResult)
    (hyt : ¬ (detectPlatform url = "instagram" ∧
      (downloadWithInstagramGraphQL td url env.insta fs0).1.success = true))
    (hr : (downloadVideo td url env fs0).1 = some r)
    (hs : r.success = true) :
    ∃ f, r.filePath = some (pathJoin td f) ∧ endsWithStr ".info.json" f = false := by
  obtain ⟨ienv, yenv⟩ := env
  unfold downloadVideo at hr
  dsimp only at hr hyt
  by_cases hp : detectPlatform url = "instagram"
  · have hsF : (downloadWithInstagramGraphQL td url ienv fs0).1.success = false := by
      cases hgs : (downloadWithInstagramGraphQL td url ienv fs0).1.success with
      | false => rfl
      | true => exact absurd ⟨hp, hgs⟩ hyt
    simp only [hp, beq_self_eq_true, if_true, hsF, Bool.false_eq_true, if_false] at hr
    exact ytdlp_success_filePath td url "instagram" yenv _ r hr hs
  · have hb : (detectPlatform url == "instagram") = false := by
      simp [beq_iff_eq, hp]
    simp only [hb, Bool.false_eq_true, if_false] at hr
    exact ytdlp_success_filePath td url (detectPlatform url) yenv fs0 r hr hs

/-- C10 witness: a concrete successful yt-dlp run on a youtube URL; the
adopted artifact is the `.mp4`, not the `.info.json` sidecar. -/
theorem c10_success_not_sidecar_witness :
    ∃ f, ytOneMatchResult.filePath = some (pathJoin "/tmp" f) ∧
      endsWithStr ".info.json" f = false :=
  c10_success_not_sidecar "/tmp" "https://www.youtube.com/watch?v=1"
    ⟨instaEnvOk, ytEnvOneMatch⟩ [] ytOneMatchResult (by decide) rfl rfl

/-! ## Artifact publisher (`CloudStorageService.uploadFile`,
src/unnamed/part_002:36-77). The S3 calls, the file read, the unlink and the
presigned-URL generation are environment inputs; the model records whether the
local file was deleted and whether a cleanup warning was logged. -/

/-- `path.basename`: the part of the path after the last `/`. -/
def basenameStr (p : String) : String :=
  ⟨(p.data.reverse.takeWhile (fun c => !(c == '/'))).reverse⟩

/-- `path.extname`: the final `.ext` segment of the basename, empty when there
is no dot or the only dot is leading. -/
def extnameStr (p : String) : String :=
  let b := (basenameStr p).data
  let pre := b.reverse.takeWhile (fun c => !(c == '.'))
  if pre.length == b.length then ""
  else if pre.length + 1 == b.length then ""
  else ⟨'.' :: pre.reverse⟩

/-- Environment of one `uploadFile` run. -/
structure UploadEnv where
  readOk : Except String Unit
  sendOk : Except String Unit
  unlinkOk : Except String Unit
  signedUrl : Except String String
  uuid : String
  deriving Repr

/-- Observable outcome of one `uploadFile` run: the returned URL or the thrown
`Upload failed:` error, whether the local file was deleted, and whether the
cleanup-failure warning was logged. -/
structure UploadOutcome where
  result : Except String String
  fileDeleted : Bool
  warnLogged : Bool
  deriving Repr

/-- `uploadFile` (src/unnamed/part_002:36-77): read the file, PUT it under
`keyPrefix ++ uuid ++ ext`, then unlink the local file inside its own
try/catch (a failure only logs a warning), then build the public or presigned
URL; any throw escaping the outer try is rethrown as `Upload failed: ...`. -/
def uploadFile (publicUrlBase : Option String) (localPath keyPrefix : String)
    (env : UploadEnv) : UploadOutcome :=
  match env.readOk with
  | .error m =>
      { result := .error ("Upload failed: " ++ m), fileDeleted := false,
        warnLogged := false }
  | .ok _ =>
    let fileName := basenameStr localPath
    let uniqueKey := keyPrefix ++ env.uuid ++ extnameStr fileName
    match env.sendOk with
    | .error m =>
        { result := .error ("Upload failed: " ++ m), fileDeleted := false,
          warnLogged := false }
    | .ok _ =>
      let deleted := match env.unlinkOk with | .ok _ => true | .error _ => false
      match publicUrlBase with
      | some base =>
          { result := .ok (base ++ "/" ++ uniqueKey), fileDeleted := deleted,
            warnLogged := !deleted }
      | none =>
        match env.signedUrl with
        | .ok u =>
            { result := .ok u, fileDeleted := deleted, warnLogged := !deleted }
        | .error m =>
            { result := .error ("Upload failed: " ++ m), fileDeleted := deleted,
              warnLogged := !deleted }

/-- An upload whose S3 PUT fails. -/
def uploadEnvSendFail : UploadEnv :=
  { readOk := .ok (), sendOk := .error "network down", unlinkOk := .ok (),
    signedUrl := .ok "https://signed.example/x", uuid := "u1" }

/-- An upload that succeeds but whose local-file unlink fails. -/
def uploadEnvUnlinkFail : UploadEnv :=
  { readOk := .ok (), sendOk := .error "", unlinkOk := .error "EBUSY",
    signedUrl := .ok "https://signed.example/x", uuid := "u1" }

/-! ## Claim C8 -/

/-- C8 counterexample: when the upload send fails, `uploadFile` throws
`Upload failed: ...` without deleting the local file — the local file is not
deleted after a failed upload attempt, contrary to the claim that deletion
happens in both the success and the failure case. -/
theorem c8_failure_no_delete_counterexample :
    (uploadFile (some "https://pub.example") "/tmp/a.mp4" "videos/"
      uploadEnvSendFail).fileDeleted = false ∧
    (uploadFile (some "https://pub.example") "/tmp/a.mp4" "videos/"
      uploadEnvSendFail).result = .error "Upload failed: network down" :=
  ⟨rfl, rfl⟩

/-- C8 amended: the local file is deleted only after a successful read and
upload send (deletion succeeds exactly when read, send and unlink all
succeed); if the read or the send fails, the function throws and the local
file is left in place; and a failure of the deletion itself is logged as a
warning and never changes the operation's result. -/
theorem c8_cleanup_semantics (pub : Option String) (localPath keyPrefix : String)
    (env : UploadEnv) :
    ((uploadFile pub localPath keyPrefix env).fileDeleted = true ↔
      (env.readOk.isOk = true ∧ env.sendOk.isOk = true ∧ env.unlinkOk.isOk = true)) ∧
    (env.readOk = .ok () → env.sendOk = .ok () →
      ∀ m, env.unlinkOk = .error m →
        (uploadFile pub localPath keyPrefix env).warnLogged = true ∧
        (uploadFile pub localPath keyPrefix env).result =
          (uploadFile pub localPath keyPrefix
            { env with unlinkOk := .ok () }).result) ∧
    ((env.readOk.isOk = false ∨ env.sendOk.isOk = false) →
      (uploadFile pub localPath keyPrefix env).fileDeleted = false) := by
  obtain ⟨ro, so, uo, su, uu⟩ := env
  refine ⟨?_, ?_, ?_⟩
  · cases ro with
    | error m => simp [uploadFile, Except.isOk, Except.toBool]
    | ok v =>
      cases so with
      | error m => simp [uploadFile, Except.isOk, Except.toBool]
      | ok w =>
        cases uo with
        | error m =>
          cases pub with
          | some base => simp [uploadFile, Except.isOk, Except.toBool]
          | none =>
            cases su with
            | ok u => simp [uploadFile, Except.isOk, Except.toBool]
            | error m2 => simp [uploadFile, Except.isOk, Except.toBool]
        | ok z =>
          cases pub with
          | some base => simp [uploadFile, Except.isOk, Except.toBool]
          | none =>
            cases su with
            | ok u => simp [uploadFile, Except.isOk, Except.toBool]
            | error m2 => simp [uploadFile, Except.isOk, Except.toBool]
  · intro hro hso m huo
    dsimp only at hro hso huo
    subst hro; subst hso; subst huo
    cases pub with
    | some base => exact ⟨rfl, rfl⟩
    | none =>
      cases su with
      | ok u => exact ⟨rfl, rfl⟩
      | error m2 => exact ⟨rfl, rfl⟩
  · intro h
    cases ro with
    | error m => simp [uploadFile]
    | ok v =>
      cases so with
      | error m => simp [uploadFile]
      | ok w =>
        rcases h with h | h <;>
          exact absurd h (by simp [Except.isOk, Except.toBool])

/-- C8 amended, witness: a successful upload with a failing unlink logs the
warning and returns the same result as if the unlink had succeeded. -/
theorem c8_cleanup_semantics_witness :
    (uploadFile (some "https://pub.example") "/tmp/a.mp4" "videos/"
      { readOk := .ok (), sendOk := .ok (), unlinkOk := .error "EBUSY",
        signedUrl := .ok "https://signed.example/x",
        uuid := "u1" }).warnLogged = true ∧
    (uploadFile (some "https://pub.example") "/tmp/a.mp4" "videos/"
      { readOk := .ok (), sendOk := .ok (), unlinkOk := .error "EBUSY",
        signedUrl := .ok "https://signed.example/x", uuid := "u1" }).result =
    (uploadFile (some "https://pub.example") "/tmp/a.mp4" "videos/"
      { readOk := .ok (), sendOk := .ok (), unlinkOk := .ok (),
        signedUrl := .ok "https://signed.example/x", uuid := "u1" }).result :=
  (c8_cleanup_semantics (some "https://pub.example") "/tmp/a.mp4" "videos/"
    { readOk := .ok (), sendOk := .ok (), unlinkOk := .error "EBUSY",
      signedUrl := .ok "https://signed.example/x", uuid := "u1" }).2.1
    rfl rfl "EBUSY" rfl

/-! ## Transcript sanitizer.

Modelled from the spec: the implementation of
`VideoDownloaderService.cleanSubtitles` is not present in the sources (only
its declaration in src/unnamed/part_001); the definitions below follow the
spec's algorithm (spec.md §4.7) word by word: drop pure-numeric index lines;
drop timestamp-range lines matching `HH:MM:SS[.,]mmm --> HH:MM:SS[.,]mmm`;
drop a leading `WEBVTT` header line; strip inline markup tags; decode the
four entities `&lt; &gt; &amp; &quot;`; collapse whitespace runs to single
spaces; join remaining text lines with single spaces; trim. Collapsing,
joining and trimming are realised together by splitting each processed line
into maximal whitespace-free words and joining all words with single spaces.
Everything is structurally recursive (entity decoding and word splitting use
a length fuel) so that concrete inputs evaluate by `decide`. -/

/-- Whitespace characters recognised by the sanitizer. -/
def isWsChar (c : Char) : Bool :=
  c == ' ' || c == '\t' || c == '\n' || c == '\r'

/-- A pure-numeric subtitle index line. -/
def isIndexLine (l : List Char) : Bool :=
  !l.isEmpty && l.all (fun c => c.isDigit)

/-- Consume exactly `n` digits. -/
def matchDigits : Nat → List Char → Option (List Char)
  | 0, l => some l
  | _ + 1, [] => none
  | n + 1, c :: cs => if c.isDigit then matchDigits n cs else none

/-- Consume a literal character sequence. -/
def matchLit : List Char → List Char → Option (List Char)
  | [], l => some l
  | _ :: _, [] => none
  | p :: ps, c :: cs => if p == c then matchLit ps cs else none

/-- Consume `[.,]` followed by three digits (the millisecond part). -/
def matchSepMillis : List Char → Option (List Char)
  | [] => none
  | c :: cs => if c == '.' || c == ',' then matchDigits 3 cs else none

/-- Consume `HH:MM:SS[.,]mmm`. -/
def matchTimePart (l : List Char) : Option (List Char) :=
  (matchDigits 2 l).bind fun l =>
    (matchLit [':'] l).bind fun l =>
      (matchDigits 2 l).bind fun l =>
        (matchLit [':'] l).bind fun l =>
          (matchDigits 2 l).bind matchSepMillis

/-- Does the list start with `HH:MM:SS[.,]mmm --> HH:MM:SS[.,]mmm`? -/
def tsAt (l : List Char) : Bool :=
  ((matchTimePart l).bind fun l =>
    (matchLit " --> ".data l).bind matchTimePart).isSome

/-- Does the line contain the timestamp-range pattern anywhere? -/
def hasTimestamp : List Char → Bool
  | [] => false
  | c :: cs => tsAt (c :: cs) || hasTimestamp cs

/-- Lines kept by the sanitizer: neither index nor timestamp lines. -/
def keepLine (l : List Char) : Bool :=
  !(isIndexLine l) && !(hasTimestamp l)

/-- Split the input into lines at newline characters. -/
def splitLinesCL : List Char → List (List Char)
  | [] => [[]]
  | c :: rest =>
    match splitLinesCL rest with
    | [] => if c == '\n' then [[], []] else [[c]]
    | l :: ls => if c == '\n' then [] :: l :: ls else (c :: l) :: ls

/-- Drop a leading `WEBVTT` header line. -/
def dropHeader : List (List Char) → List (List Char)
  | [] => []
  | l :: ls => if startsWithL "WEBVTT".data l then ls else l :: ls

/-- Strip inline markup tags: a single pass that discards everything from a
`<` to the next `>`. -/
def stripTagsAux (inTag : Bool) : List Char → List Char
  | [] => []
  | c :: cs =>
    if inTag then
      if c == '>' then stripTagsAux false cs else stripTagsAux true cs
    else
      if c == '<' then stripTagsAux true cs
      else c :: stripTagsAux false cs

/-- One fuelled pass decoding the four entities `&lt; &gt; &amp; &quot;`
left to right. -/
def decodeGo : Nat → List Char → List Char
  | 0, l => l
  | _ + 1, [] => []
  | fuel + 1, c :: cs =>
    if startsWithL "&lt;".data (c :: cs) then '<' :: decodeGo fuel ((c :: cs).drop 4)
    else if startsWithL "&gt;".data (c :: cs) then '>' :: decodeGo fuel ((c :: cs).drop 4)
    else if startsWithL "&amp;".data (c :: cs) then '&' :: decodeGo fuel ((c :: cs).drop 5)
    else if startsWithL "&quot;".data (c :: cs) then '"' :: decodeGo fuel ((c :: cs).drop 6)
    else c :: decodeGo fuel cs

/-- Decode the four entities (single left-to-right pass, as a sequence of
global string replacements would). -/
def decodeEntities (l : List Char) : List Char :=
  decodeGo l.length l

/-- Does the line contain any of the four entity sequences? -/
def hasEntity (l : List Char) : Bool :=
  substrAux "&lt;".data l || substrAux "&gt;".data l ||
  substrAux "&amp;".data l || substrAux "&quot;".data l

/-- Fuelled splitting of a line into its maximal whitespace-free words. -/
def splitWsGo : Nat → List Char → List (List Char)
  | 0, _ => []
  | fuel + 1, l =>
    match l.dropWhile isWsChar with
    | [] => []
    | c :: cs =>
      (c :: cs.takeWhile (fun d => !(isWsChar d))) ::
        splitWsGo fuel (cs.dropWhile (fun d => !(isWsChar d)))

/-- The maximal whitespace-free words of a line, in order. -/
def splitWs (l : List Char) : List (List Char) :=
  splitWsGo l.length l

/-- Join pieces with single spaces. -/
def joinSpace : List (List Char) → List Char
  | [] => []
  | [p] => p
  | p :: ps => p ++ ' ' :: joinSpace ps

/-- Process one kept line: strip tags, decode entities, split into words. -/
def sanitizeLine (l : List Char) : List (List Char) :=
  splitWs (decodeEntities (stripTagsAux false l))

/-- The sanitizer on character lists: line handling, per-line processing, and
the final whitespace normalisation / joining / trimming. -/
def cleanSubtitlesCL (input : List Char) : List Char :=
  joinSpace (((dropHeader (splitLinesCL input)).filter keepLine).map sanitizeLine).flatten

/-- Modelled from the spec: `cleanSubtitles` (spec.md §4.7); the source ships
only its declaration (src/unnamed/part_001:14). -/
def cleanSubtitles (s : String) : String :=
  ⟨cleanSubtitlesCL s.data⟩

/-! ## Sanitizer lemmas. -/

theorem dropWhile_length_le (p : Char → Bool) (l : List Char) :
    (l.dropWhile p).length ≤ l.length := by
  induction l with
  | nil => exact Nat.le_refl _
  | cons c cs ih =>
    rw [List.dropWhile_cons]
    split
    · exact Nat.le_succ_of_le ih
    · exact Nat.le_refl _

theorem dropWhile_head_neg (p : Char → Bool) (c : Char) (cs : List Char)
    (h : p c = false) : (c :: cs).dropWhile p = c :: cs := by
  rw [List.dropWhile_cons, h]
  simp

theorem takeWhile_all_pos (p : Char → Bool) (l : List Char)
    (h : l.all p = true) : l.takeWhile p = l := by
  induction l with
  | nil => rfl
  | cons c cs ih =>
    simp only [List.all_cons, Bool.and_eq_true] at h
    rw [List.takeWhile_cons, h.1]
    simp [ih h.2]

theorem dropWhile_all_pos (p : Char → Bool) (l : List Char)
    (h : l.all p = true) : l.dropWhile p = [] := by
  induction l with
  | nil => rfl
  | cons c cs ih =>
    simp only [List.all_cons, Bool.and_eq_true] at h
    rw [List.dropWhile_cons, h.1]
    simp [ih h.2]

theorem takeWhile_append_all (p : Char → Bool) (xs ys : List Char)
    (h : xs.all p = true) : (xs ++ ys).takeWhile p = xs ++ ys.takeWhile p := by
  induction xs with
  | nil => rfl
  | cons c cs ih =>
    simp only [List.all_cons, Bool.and_eq_true] at h
    rw [List.cons_append, List.takeWhile_cons, h.1]
    simp [ih h.2]

theorem dropWhile_append_all (p : Char → Bool) (xs ys : List Char)
    (h : xs.all p = true) : (xs ++ ys).dropWhile p = ys.dropWhile p := by
  induction xs with
  | nil => rfl
  | cons c cs ih =>
    simp only [List.all_cons, Bool.and_eq_true] at h
    rw [List.cons_append, List.dropWhile_cons, h.1]
    simp [ih h.2]

theorem dropWhile_head_false (p : Char → Bool) :
    ∀ (l : List Char) (c : Char) (cs : List Char),
      l.dropWhile p = c :: cs → p c = false := by
  intro l
  induction l with
  | nil => intro c cs h; cases h
  | cons a as ih =>
    intro c cs h
    rw [List.dropWhile_cons] at h
    by_cases hpa : p a = true
    · rw [if_pos hpa] at h
      exact ih c cs h
    · rw [if_neg hpa] at h
      injection h with h1 _
      subst h1
      exact Bool.eq_false_iff.mpr hpa

theorem all_takeWhile_self (p : Char → Bool) (l : List Char) :
    (l.takeWhile p).all p = true := by
  induction l with
  | nil => rfl
  | cons c cs ih =>
    rw [List.takeWhile_cons]
    by_cases hpc : p c = true
    · rw [if_pos hpc]
      simp [List.all_cons, hpc, ih]
    · rw [if_neg hpc]
      rfl

theorem splitWsGo_nil (f : Nat) : splitWsGo f [] = [] := by
  cases f <;> rfl

/-- Fuel irrelevance of `splitWsGo` above the input length. -/
theorem splitWsGo_fuel :
    ∀ (f1 : Nat) (f2 : Nat) (l : List Char), l.length ≤ f1 → l.length ≤ f2 →
      splitWsGo f1 l = splitWsGo f2 l := by
  intro f1
  induction f1 with
  | zero =>
    intro f2 l h1 _
    have hl : l = [] := List.length_eq_zero.mp (Nat.le_zero.mp h1)
    subst hl
    rw [splitWsGo_nil, splitWsGo_nil]
  | succ g1 ih =>
    intro f2 l h1 h2
    cases f2 with
    | zero =>
      have hl : l = [] := List.length_eq_zero.mp (Nat.le_zero.mp h2)
      subst hl
      rw [splitWsGo_nil, splitWsGo_nil]
    | succ g2 =>
      rw [splitWsGo, splitWsGo]
      cases hd : l.dropWhile isWsChar with
      | nil => rfl
      | cons c cs =>
        have hlen : cs.length + 1 ≤ l.length := by
          have := dropWhile_length_le isWsChar l
          rw [hd] at this
          simpa using this
        have hrec : (cs.dropWhile (fun d => !(isWsChar d))).length ≤ cs.length :=
          dropWhile_length_le _ cs
        have hg1 : (cs.dropWhile (fun d => !(isWsChar d))).length ≤ g1 := by omega
        have hg2 : (cs.dropWhile (fun d => !(isWsChar d))).length ≤ g2 := by omega
        dsimp only
        rw [ih g2 _ hg1 hg2]

/-- Every word produced by `splitWsGo` is nonempty and whitespace-free. -/
theorem splitWsGo_pieces :
    ∀ (f : Nat) (l : List Char), l.length ≤ f →
      ∀ w ∈ splitWsGo f l, w ≠ [] ∧ w.all (fun c => !(isWsChar c)) = true := by
  intro f
  induction f with
  | zero =>
    intro l _ w hw
    rw [show splitWsGo 0 l = [] from rfl] at hw
    cases hw
  | succ g ih =>
    intro l hlen w hw
    rw [splitWsGo] at hw
    revert hw
    cases hd : l.dropWhile isWsChar with
    | nil => intro hw; cases hw
    | cons c cs =>
      intro hw
      have hlen2 : cs.length + 1 ≤ l.length := by
        have := dropWhile_length_le isWsChar l
        rw [hd] at this
        simpa using this
      rcases List.mem_cons.mp hw with rfl | hw2
      · refine ⟨by simp, ?_⟩
        have hc : isWsChar c = false := dropWhile_head_false _ l c cs hd
        rw [List.all_cons]
        simp only [hc, Bool.not_false, Bool.true_and]
        exact all_takeWhile_self _ cs
      · have hg : (cs.dropWhile (fun d => !(isWsChar d))).length ≤ g := by
          have := dropWhile_length_le (fun d => !(isWsChar d)) cs
          omega
        exact ih _ hg w hw2

/-- Every word of `splitWs` is nonempty and whitespace-free. -/
theorem splitWs_pieces (l : List Char) :
    ∀ w ∈ splitWs l, w ≠ [] ∧ w.all (fun c => !(isWsChar c)) = true :=
  splitWsGo_pieces l.length l (Nat.le_refl _)

/-- Dropping one leading whitespace character does not change the word
split. -/
theorem splitWs_ws_cons (c : Char) (t : List Char) (hc : isWsChar c = true) :
    splitWs (c :: t) = splitWs t := by
  unfold splitWs
  rw [show (c :: t).length = t.length + 1 from rfl, splitWsGo,
    List.dropWhile_cons, if_pos hc]
  cases hl : t.length with
  | zero =>
    have ht : t = [] := List.length_eq_zero.mp hl
    subst ht
    rfl
  | succ g =>
    rw [splitWsGo]
    cases hd : t.dropWhile isWsChar with
    | nil => rfl
    | cons c2 cs =>
      dsimp only
      have hlen : cs.length + 1 ≤ t.length := by
        have := dropWhile_length_le isWsChar t
        rw [hd] at this
        simpa using this
      have hrec := dropWhile_length_le (fun d => !(isWsChar d)) cs
      rw [splitWsGo_fuel (g + 1) g (cs.dropWhile (fun d => !(isWsChar d)))
        (by omega) (by omega)]

/-- Splitting a space-joined list of nonempty whitespace-free words recovers
exactly those words. -/
theorem splitWs_joinSpace :
    ∀ ps : List (List Char),
      (∀ p ∈ ps, p ≠ [] ∧ p.all (fun c => !(isWsChar c)) = true) →
      splitWs (joinSpace ps) = ps := by
  intro ps
  induction ps with
  | nil => intro _; rfl
  | cons p ps ih =>
    intro hps
    obtain ⟨hne, hall⟩ := hps p (List.mem_cons_self _ _)
    obtain ⟨c, cs, rfl⟩ := List.exists_cons_of_ne_nil hne
    have hc : isWsChar c = false := by
      have := hall
      simp only [List.all_cons, Bool.and_eq_true, Bool.not_eq_true'] at this
      exact this.1
    have hcs : cs.all (fun d => !(isWsChar d)) = true := by
      have := hall
      simp only [List.all_cons, Bool.and_eq_true] at this
      exact this.2
    cases ps with
    | nil =>
      show splitWs (c :: cs) = [c :: cs]
      unfold splitWs
      rw [show (c :: cs).length = cs.length + 1 from rfl, splitWsGo,
        dropWhile_head_neg _ _ _ hc]
      dsimp only
      rw [takeWhile_all_pos _ _ hcs, dropWhile_all_pos _ _ hcs, splitWsGo_nil]
    | cons q qs =>
      have htail : ∀ r ∈ q :: qs, r ≠ [] ∧ r.all (fun d => !(isWsChar d)) = true :=
        fun r hr => hps r (List.mem_cons_of_mem _ hr)
      show splitWs ((c :: cs) ++ ' ' :: joinSpace (q :: qs)) = (c :: cs) :: q :: qs
      rw [List.cons_append]
      unfold splitWs
      rw [show (c :: (cs ++ ' ' :: joinSpace (q :: qs))).length =
        (cs ++ ' ' :: joinSpace (q :: qs)).length + 1 from rfl]
      rw [splitWsGo, dropWhile_head_neg _ _ _ hc]
      dsimp only
      rw [takeWhile_append_all _ _ _ hcs, dropWhile_append_all _ _ _ hcs]
      rw [show (' ' :: joinSpace (q :: qs)).takeWhile (fun d => !(isWsChar d)) = []
        from rfl]
      rw [show (' ' :: joinSpace (q :: qs)).dropWhile (fun d => !(isWsChar d)) =
        ' ' :: joinSpace (q :: qs) from rfl]
      rw [List.append_nil]
      have hfuel : (' ' :: joinSpace (q :: qs)).length ≤
          (cs ++ ' ' :: joinSpace (q :: qs)).length := by
        rw [List.length_append]
        simp
      rw [splitWsGo_fuel _ (' ' :: joinSpace (q :: qs)).length _ hfuel (Nat.le_refl _)]
      rw [show splitWsGo (' ' :: joinSpace (q :: qs)).length
        (' ' :: joinSpace (q :: qs)) = splitWs (' ' :: joinSpace (q :: qs)) from rfl]
      rw [splitWs_ws_cons _ _ (by decide), ih htail]

/-- Entities are absent exactly when none of the four patterns starts
anywhere; unfolds `hasEntity` one character at a time. -/
theorem hasEntity_cons (c : Char) (cs : List Char) :
    hasEntity (c :: cs) =
      (startsWithL "&lt;".data (c :: cs) || startsWithL "&gt;".data (c :: cs) ||
       startsWithL "&amp;".data (c :: cs) || startsWithL "&quot;".data (c :: cs) ||
       hasEntity cs) := by
  simp only [hasEntity, substrAux]
  ac_rfl

/-- A line with no entity sequence decodes to itself. -/
theorem decodeGo_no_entity :
    ∀ (f : Nat) (l : List Char), l.length ≤ f → hasEntity l = false →
      decodeGo f l = l := by
  intro f
  induction f with
  | zero => intro l _ _; rfl
  | succ g ih =>
    intro l hlen hent
    cases l with
    | nil => rfl
    | cons c cs =>
      rw [hasEntity_cons] at hent
      simp only [Bool.or_eq_false_iff] at hent
      obtain ⟨⟨⟨⟨h1, h2⟩, h3⟩, h4⟩, h5⟩ := hent
      rw [decodeGo, h1, h2, h3, h4]
      simp only [Bool.false_eq_true, if_false]
      rw [ih cs (by simpa using Nat.le_of_succ_le_succ hlen) h5]

/-- `decodeEntities` fixes entity-free lines. -/
theorem decodeEntities_no_entity (l : List Char) (h : hasEntity l = false) :
    decodeEntities l = l :=
  decodeGo_no_entity l.length l (Nat.le_refl _) h

/-- A line with no `<` passes the tag stripper unchanged. -/
theorem stripTags_no_lt (l : List Char)
    (h : l.all (fun c => !(c == '<')) = true) :
    stripTagsAux false l = l := by
  induction l with
  | nil => rfl
  | cons c cs ih =>
    simp only [List.all_cons, Bool.and_eq_true, Bool.not_eq_true'] at h
    rw [stripTagsAux, if_neg (by simp), if_neg (by simp [h.1])]
    rw [ih h.2]

/-- A newline-free input is a single line. -/
theorem splitLines_no_nl (l : List Char)
    (h : l.all (fun c => !(c == '\n')) = true) :
    splitLinesCL l = [l] := by
  induction l with
  | nil => rfl
  | cons c cs ih =>
    simp only [List.all_cons, Bool.and_eq_true, Bool.not_eq_true'] at h
    rw [splitLinesCL, ih h.2]
    dsimp only
    rw [if_neg (by simp [h.1])]

/-- Joining whitespace-free words with spaces yields a string all of whose
characters satisfy any predicate that holds of ' ' and of word characters. -/
theorem joinSpace_all (p : Char → Bool) (hsp : p ' ' = true) :
    ∀ ps : List (List Char), (∀ q ∈ ps, q.all p = true) →
      (joinSpace ps).all p = true := by
  intro ps
  induction ps with
  | nil => intro _; rfl
  | cons q ps ih =>
    intro h
    cases ps with
    | nil => exact h q (List.mem_cons_self _ _)
    | cons r rs =>
      show ((q ++ ' ' :: joinSpace (r :: rs)).all p) = true
      rw [List.all_append]
      have h1 := h q (List.mem_cons_self _ _)
      have h2 := ih (fun s hs => h s (List.mem_cons_of_mem _ hs))
      simp [h1, h2, List.all_cons, hsp]

/-- The sanitizer fixes any space-joined list of nonempty whitespace-free
words that is not itself droppable or further decodable: not a `WEBVTT`
header, not a pure-numeric index line, not a timestamp line, free of `<` and
of the four entity sequences. -/
theorem cleanSubtitles_fixed (ps : List (List Char))
    (hps : ∀ p ∈ ps, p ≠ [] ∧ p.all (fun c => !(isWsChar c)) = true)
    (h1 : startsWithL "WEBVTT".data (joinSpace ps) = false)
    (h2 : isIndexLine (joinSpace ps) = false)
    (h3 : hasTimestamp (joinSpace ps) = false)
    (h4 : (joinSpace ps).all (fun c => !(c == '<')) = true)
    (h5 : hasEntity (joinSpace ps) = false) :
    cleanSubtitlesCL (joinSpace ps) = joinSpace ps := by
  have hnl : (joinSpace ps).all (fun c => !(c == '\n')) = true := by
    apply joinSpace_all _ (by decide) ps
    intro q hq
    have hq2 := (hps q hq).2
    rw [List.all_eq_true] at hq2 ⊢
    intro c hcmem
    have h' := hq2 c hcmem
    simp only [Bool.not_eq_true'] at h' ⊢
    cases hcn : c == '\n' with
    | false => rfl
    | true =>
      have hceq : c = '\n' := eq_of_beq hcn
      subst hceq
      simp [isWsChar] at h'
  unfold cleanSubtitlesCL
  rw [splitLines_no_nl _ hnl]
  rw [show dropHeader [joinSpace ps] = [joinSpace ps] from by
    rw [dropHeader, h1]; simp]
  rw [show List.filter keepLine [joinSpace ps] = [joinSpace ps] from by
    rw [List.filter_cons]
    simp [keepLine, h2, h3]]
  rw [List.map_cons, List.map_nil, List.flatten_cons, List.flatten_nil,
    List.append_nil]
  show joinSpace (sanitizeLine (joinSpace ps)) = joinSpace ps
  unfold sanitizeLine
  rw [stripTags_no_lt _ h4, decodeEntities_no_entity _ h5, splitWs_joinSpace ps hps]

/-! ## Claim C5 -/

/-- C5 counterexample: the sanitizer modelled from the spec is not idempotent.
Each pass decodes one level of entity references, so the double-encoded input
`&amp;amp;` sanitizes to `&amp;`, which re-sanitizes to `&` — any
implementation of the spec's entity decoding by (sequential or simultaneous)
string replacement behaves this way. -/
theorem c5_not_idempotent_counterexample :
    cleanSubtitles "&amp;amp;" = "&amp;" ∧
    cleanSubtitles (cleanSubtitles "&amp;amp;") = "&" ∧
    cleanSubtitles (cleanSubtitles "&amp;amp;") ≠ cleanSubtitles "&amp;amp;" :=
  ⟨by decide, by decide, by decide⟩

/-- C5 amended: the sanitizer is idempotent on every input whose sanitized
output is inert under a second pass — i.e. whenever `cleanSubtitles x` does
not start with `WEBVTT`, is not a pure-numeric line, does not contain the
timestamp-range pattern, contains no `<`, and contains none of the four
entity sequences. (Each hypothesis is forced by an input family like
`&amp;amp;`, `&lt;b&gt;`, `<x>42</x>`, for which a second pass decodes,
strips or drops further.) -/
theorem c5_conditional_idempotence (x : String)
    (h1 : startsWithL "WEBVTT".data (cleanSubtitles x).data = false)
    (h2 : isIndexLine (cleanSubtitles x).data = false)
    (h3 : hasTimestamp (cleanSubtitles x).data = false)
    (h4 : (cleanSubtitles x).data.all (fun c => !(c == '<')) = true)
    (h5 : hasEntity (cleanSubtitles x).data = false) :
    cleanSubtitles (cleanSubtitles x) = cleanSubtitles x := by
  have hps : ∀ p ∈ (((dropHeader (splitLinesCL x.data)).filter keepLine).map
      sanitizeLine).flatten, p ≠ [] ∧ p.all (fun c => !(isWsChar c)) = true := by
    intro p hp
    rw [List.mem_flatten] at hp
    obtain ⟨s, hs, hps'⟩ := hp
    rw [List.mem_map] at hs
    obtain ⟨line, _, rfl⟩ := hs
    exact splitWs_pieces _ p hps'
  exact congrArg String.mk
    (cleanSubtitles_fixed (((dropHeader (splitLinesCL x.data)).filter
      keepLine).map sanitizeLine).flatten hps h1 h2 h3 h4 h5)

/-- C5 amended, witness: the conditional idempotence applied to the spec's own
test vector, whose sanitized output `Hello & world` is inert. -/
theorem c5_conditional_idempotence_witness :
    cleanSubtitles
      (cleanSubtitles "1\n00:00:01,000 --> 00:00:02,000\nHello &amp; world\n") =
    cleanSubtitles "1\n00:00:01,000 --> 00:00:02,000\nHello &amp; world\n" :=
  c5_conditional_idempotence "1\n00:00:01,000 --> 00:00:02,000\nHello &amp; world\n"
    (by decide) (by decide) (by decide) (by decide) (by decide)

end VideoServer
